import Mathlib

/-!
Verification of the offline-first synchronization engine of the
Quincaillerie SME management application.

The development shallowly embeds the JavaScript source:

* `offline-handler.js` — the IndexedDB-backed offline data handler
  (`openDB` object stores, `storeData`, `deleteItem`,
  `storePendingOperation`, `processPendingOperations`, `createSale`);
* `sw.js` (service worker, v1.1.0) — the fetch-event cache strategy
  router (`apiRequestStrategy`, `cacheFirstStrategy`,
  `networkFirstStrategy`, `handleNavigationRequest`,
  `networkOnlyWithSync`) and the background-sync drain
  (`syncQueuedRequests`).

IndexedDB object stores are modelled as lists of records keyed by an
`id` field; autoincrement stores carry an explicit `nextId` counter.
JavaScript objects that simply lack a property (such as `attemptCount`
on a pending operation) are modelled with `Option` fields holding
`none`.  The network is modelled as a function from the issued request
to its outcome (a response with a status code, or a thrown exception).
-/

namespace Quincaillerie

/-- HTTP `Response.ok` — status in the 200..299 range. -/
def statusOk (s : Nat) : Bool := decide (200 ≤ s ∧ s < 300)

/-- An opaque JSON payload as carried by a pending operation
(`op.data` in `offline-handler.js`).  The fields the drain inspects
are modelled explicitly (`data.id`, `data.reference`,
`data.created_at`); everything else is the opaque `body` blob.
A JavaScript property that is absent is `none`. -/
structure Payload where
  pid : Option Nat := none
  reference : Option String := none
  created_at : Option String := none
  body : String := ""
deriving DecidableEq, Repr

/-- A record of the `pendingOperations` object store.
`storePendingOperation` stores exactly `\x7b type, data, timestamp \x7d`;
the autoincrement key `id` is injected by IndexedDB.  The object has
no `attemptCount` or `lastError` property, hence those fields are
`none` for every record the code ever creates. -/
structure PendingOp where
  id : Nat
  type : String
  data : Payload
  timestamp : Nat
  attemptCount : Option Nat := none
  lastError : Option String := none
deriving DecidableEq, Repr

/-- IndexedDB `store.delete(key)` on a store keyed by `key` — removes
the record with that primary key, a no-op when the key is absent. -/
def idbDeleteBy (key : α → Nat) (items : List α) (k : Nat) : List α :=
  items.filter (fun x => key x ≠ k)

/-- `deleteItem('pendingOperations', id)` from `offline-handler.js`:
wraps the IndexedDB delete; the IndexedDB `delete` request succeeds
for an absent key, so the function returns `true` in every case (the
`catch` branch returning `false` is reached only when the database
itself cannot be opened). -/
def deleteItem (items : List PendingOp) (id : Nat) : Bool × List PendingOp :=
  (true, idbDeleteBy PendingOp.id items id)

/-- The `pendingOperations` autoincrement object store: the next key
to be assigned, and the stored records in insertion order (IndexedDB
`getAll` returns records in ascending key order, which for a pure
autoincrement store coincides with insertion order). -/
structure OpStore where
  nextId : Nat := 1
  items : List PendingOp := []
deriving DecidableEq, Repr

/-- The empty `pendingOperations` store as created by `onupgradeneeded`. -/
def OpStore.empty : OpStore := {}

/-- `store.add(pendingOp)` inside `storePendingOperation`: IndexedDB
assigns the autoincrement key and appends the record
`\x7b type, data, timestamp \x7d`. -/
def OpStore.add (s : OpStore) (type : String) (data : Payload) (ts : Nat) : OpStore :=
  { nextId := s.nextId + 1
    items := s.items ++ [{ id := s.nextId, type := type, data := data, timestamp := ts }] }

/-- `storePendingOperation(type, data)` from `offline-handler.js`:
when the database can be opened (`avail`), durably add the operation
and return `true`; when it cannot, the `catch` branch returns `false`
and nothing is stored. -/
def storePendingOperation (avail : Bool) (s : OpStore) (type : String)
    (data : Payload) (ts : Nat) : Bool × OpStore :=
  if avail then (true, s.add type data ts) else (false, s)

/-- Enqueue a batch of operations one `storePendingOperation` call at
a time (storage available). -/
def OpStore.addAll (s : OpStore) (xs : List (String × Payload × Nat)) : OpStore :=
  xs.foldl (fun acc x => acc.add x.1 x.2.1 x.2.2) s

/- ## Service worker cache strategies (`sw.js`, v1.1.0) -/

/-- A response as seen by the service worker: status code and body. -/
structure SWResponse where
  status : Nat
  body : String
deriving DecidableEq, Repr

/-- An entry of the Cache Storage (`caches.open(CACHE_NAME)`), keyed
by request URL.  `storedAt` records when the response was cached; the
code never consults it (entries are replaced, never expired). -/
structure CacheEntry where
  url : String
  status : Nat
  body : String
  storedAt : Nat := 0
deriving DecidableEq, Repr

/-- The response a cache entry reproduces when served. -/
def entryResponse (e : CacheEntry) : SWResponse := { status := e.status, body := e.body }

/-- The outcome of a `fetch(request)` call: a response (of any
status), or a thrown network error. -/
inductive NetResult where
  | resp (r : SWResponse)
  | failure
deriving DecidableEq, Repr

/-- `caches.match(request)` — the stored response for the request
URL, if any. -/
def cacheMatch (cache : List CacheEntry) (url : String) : Option CacheEntry :=
  cache.find? (fun e => e.url = url)

/-- `cache.put(request, response)` — replace the entry for the URL,
or create one. -/
def cachePut (cache : List CacheEntry) (url : String) (r : SWResponse) (now : Nat) :
    List CacheEntry :=
  let e : CacheEntry := { url := url, status := r.status, body := r.body, storedAt := now }
  if cache.any (fun x => x.url = url) then
    cache.map (fun x => if x.url = url then e else x)
  else cache ++ [e]

/-- The synthetic offline response `apiRequestStrategy` builds when
there is neither a cached response nor a reachable network: a 503 with
a machine-readable JSON body. -/
def offlineResponse : SWResponse :=
  { status := 503
    body := "\x7b\"success\":false,\"error\":\"Offline - data not available\",\"offline\":true\x7d" }

/-- A record of the service worker's `sync_queue` object store
(`storeRequestForSync`): the failed write request, serialized. -/
structure SyncRequest where
  id : Nat
  url : String
  method : String
  body : Option String := none
  timestamp : Nat := 0
deriving DecidableEq, Repr

/-- Service worker state: the response cache and the `sync_queue`
store of `QuincaillerieSyncDB` (with its autoincrement counter). -/
structure SWState where
  cache : List CacheEntry := []
  syncQueue : List SyncRequest := []
  syncNextId : Nat := 1
deriving DecidableEq, Repr

/-- `updateCacheInBackground(request)`: fire-and-forget re-fetch; the
cache is refreshed only when the fetch yields an `ok` response, and a
failure is logged, never surfaced — the function has no effect on the
response already being returned. -/
def updateCacheInBackground (net : String → NetResult) (cache : List CacheEntry)
    (url : String) (now : Nat) : List CacheEntry :=
  match net url with
  | .resp r => if statusOk r.status then cachePut cache url r now else cache
  | .failure => cache

/-- `storeRequestForSync(request)`: serialize the request into the
`sync_queue` store (autoincrement key). -/
def storeRequestForSync (st : SWState) (url method : String) (body : Option String)
    (now : Nat) : SWState :=
  { st with
    syncQueue := st.syncQueue ++
      [{ id := st.syncNextId, url := url, method := method, body := body, timestamp := now }]
    syncNextId := st.syncNextId + 1 }

/-- The synthetic 202 response `networkOnlyWithSync` answers with
after queueing a failed write. -/
def queuedResponse : SWResponse :=
  { status := 202
    body := "\x7b\"success\":false,\"error\":\"Request queued for sync when online\",\"queued\":true\x7d" }

/-- `networkOnlyWithSync(request)` from `sw.js`: try the network; on a
thrown network error, store the request in the sync queue and answer
with the synthetic 202 `queued` response. -/
def networkOnlyWithSync (net : String → NetResult) (st : SWState)
    (url method : String) (body : Option String) (now : Nat) : SWResponse × SWState :=
  match net url with
  | .resp r => (r, st)
  | .failure => (queuedResponse, storeRequestForSync st url method body now)

/-- The GET branch of `apiRequestStrategy` from `sw.js`: cache first;
on a hit, return the cached response at once and revalidate in the
background; on a miss, fetch — an `ok` response is cached, any
response is returned; when the fetch throws, re-check the cache and
otherwise answer with the synthetic 503 offline response. -/
def apiGetStrategy (net : String → NetResult) (st : SWState) (url : String)
    (now : Nat) : SWResponse × SWState :=
  match cacheMatch st.cache url with
  | some e =>
      (entryResponse e, { st with cache := updateCacheInBackground net st.cache url now })
  | none =>
      match net url with
      | .resp r =>
          let cache1 := if statusOk r.status then cachePut st.cache url r now else st.cache
          (r, { st with cache := cache1 })
      | .failure =>
          match cacheMatch st.cache url with
          | some e => (entryResponse e, st)
          | none => (offlineResponse, st)

/-- A fetch event's request, with the pieces the `fetch` listener
inspects. -/
structure FetchRequest where
  method : String := "GET"
  urlProtocol : String := "https:"
  urlHost : String := "app.local"
  urlPath : String := "/"
  mode : String := "no-cors"
  destination : String := ""
  body : Option String := none
deriving DecidableEq, Repr

/-- `apiRequestStrategy(request)` from `sw.js`: non-GET methods go to
`networkOnlyWithSync`; GET goes to the cache-first branch. -/
def apiRequestStrategy (net : String → NetResult) (st : SWState) (req : FetchRequest)
    (now : Nat) : SWResponse × SWState :=
  if req.method ≠ "GET" then networkOnlyWithSync net st req.urlPath req.method req.body now
  else apiGetStrategy net st req.urlPath now

/-- `isAPIRequest(request)` from `sw.js`. -/
def isAPIRequest (req : FetchRequest) : Bool :=
  req.urlPath.startsWith "/api/"

/-- The static-resource extension list of `sw.js`. -/
def staticExtensions : List String :=
  [".css", ".js", ".png", ".jpg", ".jpeg", ".gif", ".svg", ".ico", ".woff", ".woff2"]

/-- `isStaticResource(request)` from `sw.js`. -/
def isStaticResource (req : FetchRequest) : Bool :=
  staticExtensions.any (fun ext => req.urlPath.endsWith ext) ||
    req.urlHost = "cdn.tailwindcss.com" ||
    req.urlHost = "unpkg.com" ||
    req.urlHost = "cdn.jsdelivr.net"

/-- The outcome of a strategy inside `event.respondWith`: a response,
or a rethrown error (the promise passed to `respondWith` rejects). -/
inductive StrategyResult where
  | response (r : SWResponse)
  | netError
deriving DecidableEq, Repr

/-- `networkFirstStrategy(request)` from `sw.js`: network, falling
back to the cache; with nothing cached the error is rethrown. -/
def networkFirstStrategy (net : String → NetResult) (st : SWState) (url : String)
    (now : Nat) : StrategyResult × SWState :=
  match net url with
  | .resp r =>
      if statusOk r.status then
        (.response r, { st with cache := cachePut st.cache url r now })
      else
        match cacheMatch st.cache url with
        | some e => (.response (entryResponse e), st)
        | none => (.netError, st)
  | .failure =>
      match cacheMatch st.cache url with
      | some e => (.response (entryResponse e), st)
      | none => (.netError, st)

/-- `cacheFirstStrategy(request)` from `sw.js`: cached response with
background revalidation, else network (cache on `ok`), rethrowing a
network error. -/
def cacheFirstStrategy (net : String → NetResult) (st : SWState) (url : String)
    (now : Nat) : StrategyResult × SWState :=
  match cacheMatch st.cache url with
  | some e =>
      (.response (entryResponse e), { st with cache := updateCacheInBackground net st.cache url now })
  | none =>
      match net url with
      | .resp r =>
          let cache1 := if statusOk r.status then cachePut st.cache url r now else st.cache
          (.response r, { st with cache := cache1 })
      | .failure => (.netError, st)

/-- The last-resort plain-text offline message of
`handleNavigationRequest`. -/
def offlineTextResponse : SWResponse :=
  { status := 503, body := "You are offline and no cached content is available." }

/-- The `catch` branch of `handleNavigationRequest`: the cached page,
else the cached `/offline.html`, else a plain 503 text response. -/
def navigationFallback (st : SWState) (url : String) : StrategyResult × SWState :=
  match cacheMatch st.cache url with
  | some e => (.response (entryResponse e), st)
  | none =>
      match cacheMatch st.cache "/offline.html" with
      | some e => (.response (entryResponse e), st)
      | none => (.response offlineTextResponse, st)

/-- `handleNavigationRequest(request)` from `sw.js`: network first; on
failure the cache; then the cached `/offline.html`; finally a plain
503 text response. -/
def handleNavigationRequest (net : String → NetResult) (st : SWState) (url : String)
    (now : Nat) : StrategyResult × SWState :=
  match net url with
  | .resp r =>
      if statusOk r.status then
        (.response r, { st with cache := cachePut st.cache url r now })
      else
        navigationFallback st url
  | .failure => navigationFallback st url

/-- The `fetch` event listener of `sw.js`: pass non-GET and
chrome-extension requests through untouched (no `respondWith`), then
route navigations, API requests, static resources and everything else
to their strategies. -/
def handleFetch (net : String → NetResult) (st : SWState) (req : FetchRequest)
    (now : Nat) : Option StrategyResult × SWState :=
  if req.method ≠ "GET" ∨ req.urlProtocol = "chrome-extension:" then
    (none, st)
  else if req.mode = "navigate" ∨ req.destination = "document" then
    let (r, st1) := handleNavigationRequest net st req.urlPath now
    (some r, st1)
  else if isAPIRequest req then
    let (r, st1) := apiRequestStrategy net st req now
    (some (.response r), st1)
  else if isStaticResource req then
    let (r, st1) := cacheFirstStrategy net st req.urlPath now
    (some r, st1)
  else
    let (r, st1) := networkFirstStrategy net st req.urlPath now
    (some r, st1)

/- ## Background-sync drain (`syncQueuedRequests`, `sw.js` v1.1.0) -/

/-- The outcome of replaying one queued request over the network: a
response with a status code, or a thrown network error. -/
inductive SyncFetchResult where
  | resp (status : Nat)
  | exn
deriving DecidableEq, Repr

/-- Whether a replay outcome is a confirmed HTTP success
(`response.ok`). -/
def syncOk : SyncFetchResult → Bool
  | .resp s => statusOk s
  | .exn => false

/-- The `response.status === 401 || response.status === 403` test of
`syncQueuedRequests`. -/
def isAuthStatus (s : Nat) : Bool := decide (s = 401 ∨ s = 403)

/-- Whether a replay outcome makes `syncQueuedRequests` delete the
request from the queue: a confirmed success, or the explicit 401/403
auth decision. -/
def removalOutcome : SyncFetchResult → Bool
  | .resp s => statusOk s || isAuthStatus s
  | .exn => false

/-- A `client.postMessage` payload sent by `syncQueuedRequests`. -/
inductive SWMessage where
  | authRequired (requestUrl : String)
  | syncCompleted (syncedCount failedCount totalCount : Nat)
deriving DecidableEq, Repr

/-- `self.clients.matchAll()` followed by a `postMessage` to each
client: the message is delivered to every registered client. -/
def broadcast (clients : List Nat) (m : SWMessage) : List (Nat × SWMessage) :=
  clients.map (fun c => (c, m))

/-- The observable result of one `syncQueuedRequests` run: the final
`sync_queue` contents, the two counters, the requests actually handed
to `fetch` in issue order (`attempted` instruments the fetch calls of
the loop), and every message posted to a client. -/
structure SyncOutcome where
  queue : List SyncRequest
  successCount : Nat
  failCount : Nat
  attempted : List SyncRequest
  messages : List (Nat × SWMessage)
deriving DecidableEq, Repr

/-- The `for (const requestData of requests)` loop of
`syncQueuedRequests`: replay each snapshotted request in order; on
`response.ok` delete it from the store and count a success; otherwise
count a failure and, exactly on status 401/403, delete it and notify
every client with `AUTH_REQUIRED`; a thrown fetch error only counts a
failure.  The loop never breaks: every request of the snapshot is
attempted. -/
def syncLoop (net : SyncRequest → SyncFetchResult) (clients : List Nat) :
    List SyncRequest → SyncOutcome → SyncOutcome
  | [], acc => acc
  | r :: rest, acc =>
    match net r with
    | .resp status =>
      if statusOk status then
        syncLoop net clients rest
          { acc with
            queue := idbDeleteBy SyncRequest.id acc.queue r.id
            successCount := acc.successCount + 1
            attempted := acc.attempted ++ [r] }
      else if isAuthStatus status then
        syncLoop net clients rest
          { acc with
            queue := idbDeleteBy SyncRequest.id acc.queue r.id
            failCount := acc.failCount + 1
            attempted := acc.attempted ++ [r]
            messages := acc.messages ++ broadcast clients (.authRequired r.url) }
      else
        syncLoop net clients rest
          { acc with
            failCount := acc.failCount + 1
            attempted := acc.attempted ++ [r] }
    | .exn =>
        syncLoop net clients rest
          { acc with
            failCount := acc.failCount + 1
            attempted := acc.attempted ++ [r] }

/-- `syncQueuedRequests()` from `sw.js` v1.1.0: snapshot the
`sync_queue` store (`store.getAll()`, ascending key order), run the
replay loop, then post `SYNC_COMPLETED` with the success count, the
failure count and the snapshot length to every client.  (The
fire-and-forget `updateCacheUrl` cache refresh on a success touches
only the response cache and is elided here.) -/
def syncQueuedRequests (net : SyncRequest → SyncFetchResult) (clients : List Nat)
    (queue : List SyncRequest) : SyncOutcome :=
  let requests := queue
  let out := syncLoop net clients requests
    { queue := queue, successCount := 0, failCount := 0, attempted := [], messages := [] }
  { out with
    messages := out.messages ++
      broadcast clients (.syncCompleted out.successCount out.failCount requests.length) }

/-- Concrete queued request A for the auth-failure scenario. -/
def reqA : SyncRequest :=
  { id := 1, url := "/api/sales/create", method := "POST", body := some "saleA", timestamp := 1 }

/-- Concrete queued request B (the one that will hit the 401). -/
def reqB : SyncRequest :=
  { id := 2, url := "/api/customers/create", method := "POST", body := some "custB", timestamp := 2 }

/-- Concrete queued request C, enqueued after B. -/
def reqC : SyncRequest :=
  { id := 3, url := "/api/finance/records", method := "POST", body := some "finC", timestamp := 3 }

/-- A network where request B is answered 401 and everything else
succeeds with 200. -/
def authNet : SyncRequest → SyncFetchResult :=
  fun r => if r.id = 2 then .resp 401 else .resp 200

/- ## Pending-operations drain (`processPendingOperations`, `offline-handler.js`) -/

/-- A record of the `products` object store; the entity fields other
than the primary key are opaque to the engine. -/
structure ProductRec where
  id : Nat
  fieldsBlob : String := ""
deriving DecidableEq, Repr

/-- A record of the `sales` object store (autoincrement key `id`),
with the fields the reconciliation code inspects. -/
structure SaleRec where
  id : Nat
  reference : Option String := none
  created_at : Option String := none
  synced : Bool := false
  fieldsBlob : String := ""
deriving DecidableEq, Repr

/-- IndexedDB `store.put(record)` on a keyed store: overwrite the
record carrying the same primary key, else append. -/
def idbPutBy (key : α → Nat) (items : List α) (r : α) : List α :=
  if items.any (fun x => key x = key r) then
    items.map (fun x => if key x = key r then r else x)
  else items ++ [r]

/-- The `sales` autoincrement object store. -/
structure SaleStore where
  nextId : Nat := 1
  items : List SaleRec := []
deriving DecidableEq, Repr

/-- A sale object handed to `storeData('sales', …)`; `id` is `none`
when the object carries no `id` property (autoincrement assigns
one). -/
structure SaleInput where
  id : Option Nat := none
  reference : Option String := none
  created_at : Option String := none
  synced : Bool := false
  fieldsBlob : String := ""
deriving DecidableEq, Repr

/-- `store.put(obj)` on the autoincrement `sales` store: without an
`id` property the generator assigns the next key and appends; with one
it overwrites by that key. -/
def SaleStore.put (s : SaleStore) (r : SaleInput) : SaleStore :=
  match r.id with
  | some i =>
      let rec1 : SaleRec :=
        { id := i, reference := r.reference, created_at := r.created_at,
          synced := r.synced, fieldsBlob := r.fieldsBlob }
      { s with items := idbPutBy SaleRec.id s.items rec1 }
  | none =>
      let rec2 : SaleRec :=
        { id := s.nextId, reference := r.reference, created_at := r.created_at,
          synced := r.synced, fieldsBlob := r.fieldsBlob }
      { nextId := s.nextId + 1, items := s.items ++ [rec2] }

/-- `storeData('sales', obj)` from `offline-handler.js`: put the
record when the database opens, otherwise catch the error and report
`false` with nothing stored. -/
def storeDataSale (avail : Bool) (s : SaleStore) (r : SaleInput) : Bool × SaleStore :=
  if avail then (true, s.put r) else (false, s)

/-- The local offline database of `offline-handler.js`
(`QuincaillerieOfflineDB`): the `products`, `sales` and
`pendingOperations` object stores (the `customers` store is never
touched by the drain). -/
structure AppDB where
  products : List ProductRec := []
  sales : SaleStore := {}
  ops : OpStore := {}
deriving DecidableEq, Repr

/-- The parsed JSON body of a write response (`response.json()`),
restricted to the fields the drain inspects. -/
structure RespJson where
  success : Bool := false
  sale_id : Option Nat := none
deriving DecidableEq, Repr

/-- Outcome of a fetch issued by `processPendingOperations`: a
response with a status and (when the body parses) a JSON payload, or
a thrown network error. -/
inductive FetchResult where
  | resp (status : Nat) (json : Option RespJson)
  | exn
deriving DecidableEq, Repr

/-- JavaScript template interpolation of a possibly-absent number
(an absent property prints as `undefined`). -/
def optNatToString : Option Nat → String
  | some n => toString n
  | none => "undefined"

/-- The `switch (op.type)` of `processPendingOperations` mapping an
operation type to its endpoint and method; `none` models the
`default:` branch, which logs a warning and `continue`s. -/
def routeOp (op : PendingOp) : Option (String × String) :=
  if op.type = "create_sale" then some ("/api/sales/create", "POST")
  else if op.type = "update_product" then
    some ("/api/inventory/products/" ++ optNatToString op.data.pid, "PUT")
  else if op.type = "create_customer" then some ("/api/customers/create", "POST")
  else if op.type = "update_inventory" then some ("/api/inventory/update-stock", "PUT")
  else if op.type = "add_finance_record" then some ("/api/finance/records", "POST")
  else none

/-- A request issued by the drain: endpoint, method, JSON body. -/
structure IssuedReq where
  endpoint : String
  method : String
  payload : Payload
deriving DecidableEq, Repr

/-- The request `processPendingOperations` issues for an operation,
when its type is known. -/
def reqOf (op : PendingOp) : Option IssuedReq :=
  (routeOp op).map (fun em => { endpoint := em.1, method := em.2, payload := op.data })

/-- Whether the drain's replay of an operation yields a confirmed
HTTP success (`response.ok`); an unknown type is never attempted. -/
def opSucceeds (net : IssuedReq → FetchResult) (op : PendingOp) : Bool :=
  match reqOf op with
  | none => false
  | some req =>
    match net req with
    | .resp s _ => statusOk s
    | .exn => false

/-- The spread `\x7b ...products[index], ...op.data \x7d` of the
`update_product` mirror refresh: the payload's fields overwrite the
mirrored product's; the primary key is the payload's own `id`, which
equals the matched record's. -/
def mergeProduct (old : ProductRec) (d : Payload) : ProductRec :=
  { id := d.pid.getD old.id, fieldsBlob := d.body }

/-- `products.findIndex(p => p.id === op.data.id)` followed by the
in-place merge: rewrite the first record whose id matches; `none`
when no record matches (the code then skips the `storeData`). -/
def updateProducts (d : Payload) (k : Nat) : List ProductRec → Option (List ProductRec)
  | [] => none
  | p :: rest =>
    if p.id = k then some (mergeProduct p d :: rest)
    else (updateProducts d k rest).map (p :: ·)

/-- The `update_product` success branch: read all products, merge the
payload into the matching one, and put the whole array back
(`storeData('products', products)`). -/
def updateProductMirror (products : List ProductRec) (d : Payload) : List ProductRec :=
  match d.pid with
  | none => products
  | some k =>
    match updateProducts d k products with
    | none => products
    | some arr => arr.foldl (idbPutBy ProductRec.id) products

/-- The correlation predicate of the `create_sale` reconciliation:
`s.reference === op.data.reference ||
 (s.created_at === op.data.created_at && !s.synced)` — strict
equality of two absent properties is true. -/
def saleMatches (d : Payload) (s : SaleRec) : Bool :=
  s.reference = d.reference || (s.created_at = d.created_at && !s.synced)

/-- `sales.find(…)` followed by the in-place mutation
`localSale.id = responseData.sale_id; localSale.synced = true`:
rewrite the first matching record; `none` when no record matches (the
code then skips the `storeData`). -/
def findAndMark (d : Payload) (sid : Nat) : List SaleRec → Option (List SaleRec)
  | [] => none
  | s :: rest =>
    if saleMatches d s then some ({ s with id := sid, synced := true } :: rest)
    else (findAndMark d sid rest).map (s :: ·)

/-- The `create_sale` success branch of `processPendingOperations`:
when the response parses and carries `success` with a truthy
`sale_id`, rewrite the first correlated local sale and put the whole
array back (`storeData('sales', sales)`); any parse error is caught
and ignored. -/
def reconcileSale (sales : SaleStore) (d : Payload) (json : Option RespJson) : SaleStore :=
  match json with
  | none => sales
  | some j =>
    match j.sale_id with
    | none => sales
    | some sid =>
      if j.success = true ∧ sid ≠ 0 then
        match findAndMark d sid sales.items with
        | none => sales
        | some arr => { sales with items := arr.foldl (idbPutBy SaleRec.id) sales.items }
      else sales

/-- The success branch of one loop iteration of
`processPendingOperations`: delete the operation from
`pendingOperations`, then refresh the local mirror for
`update_product` and `create_sale` operations. -/
def applySuccess (db : AppDB) (op : PendingOp) (json : Option RespJson) : AppDB :=
  let db1 := { db with ops := { db.ops with items := idbDeleteBy PendingOp.id db.ops.items op.id } }
  if op.type = "update_product" then
    { db1 with products := updateProductMirror db1.products op.data }
  else if op.type = "create_sale" then
    { db1 with sales := reconcileSale db1.sales op.data json }
  else db1

/-- The `for (const op of pendingOps)` loop of
`processPendingOperations`: route each snapshotted operation (an
unknown type is skipped and counted nowhere), issue the request, and
on `response.ok` delete the operation and reconcile the mirror; any
other response or a thrown error only increments the failure counter.
Returns the final database, the `processed` and `failed` counters and
the requests handed to `fetch` in issue order. -/
def drainLoop (net : IssuedReq → FetchResult) :
    List PendingOp → AppDB → Nat → Nat → List IssuedReq →
      AppDB × Nat × Nat × List IssuedReq
  | [], db, processed, failed, reqs => (db, processed, failed, reqs)
  | op :: rest, db, processed, failed, reqs =>
    match reqOf op with
    | none => drainLoop net rest db processed failed reqs
    | some req =>
      match net req with
      | .exn => drainLoop net rest db processed (failed + 1) (reqs ++ [req])
      | .resp status json =>
        if statusOk status then
          drainLoop net rest (applySuccess db op json) (processed + 1) failed (reqs ++ [req])
        else
          drainLoop net rest db processed (failed + 1) (reqs ++ [req])

/-- The summary object `processPendingOperations` resolves with; the
empty-queue early return carries no `failed`/`total` properties,
hence the `Option`s. -/
structure DrainResult where
  success : Bool
  processed : Nat
  failed : Option Nat := none
  total : Option Nat := none
deriving DecidableEq, Repr

/-- The observable outcome of one `processPendingOperations` run. -/
structure PPOOutcome where
  db : AppDB
  result : DrainResult
  attempted : List IssuedReq
deriving DecidableEq, Repr

/-- `processPendingOperations()` from `offline-handler.js`: snapshot
the queue (`getAllData('pendingOperations')`, ascending key order);
an empty queue returns `\x7b success: true, processed: 0 \x7d` at
once; otherwise run the loop and return the summary with
`total = pendingOps.length`. -/
def processPendingOperations (net : IssuedReq → FetchResult) (db0 : AppDB) : PPOOutcome :=
  let pendingOps := db0.ops.items
  if pendingOps.isEmpty then
    { db := db0, result := { success := true, processed := 0 }, attempted := [] }
  else
    let r := drainLoop net pendingOps db0 0 0 []
    { db := r.1
      result := { success := true, processed := r.2.1, failed := some r.2.2.1,
                  total := some pendingOps.length }
      attempted := r.2.2.2 }

/- ## `createSale` (`offline-handler.js`) -/

/-- The result object `createSale` resolves with. -/
structure CreateSaleResult where
  success : Bool
  sale_id : Option Nat := none
  online : Bool := false
  offline : Bool := false
  fallback : Bool := false
  message : Option String := none
  error : Option String := none
deriving DecidableEq, Repr

/-- The offline/fallback path of `createSale`: build the offline sale
(`created_at` overwritten with the current ISO timestamp,
`synced: false`), `storeData` it, `storePendingOperation` the payload
— both booleans are ignored, and neither helper ever throws (each
catches internally), so the path always resolves with
`success: true`. -/
def createSaleOffline (fellBack : Bool) (avail : Bool) (db : AppDB)
    (nowIso : String) (nowMs : Nat) (saleData : Payload) : CreateSaleResult × AppDB :=
  let (_, sales1) := storeDataSale avail db.sales
    { id := none, reference := saleData.reference, created_at := some nowIso,
      synced := false, fieldsBlob := saleData.body }
  let (_, ops1) := storePendingOperation avail db.ops "create_sale" saleData nowMs
  (if fellBack then
    { success := true, offline := true, fallback := true
      message := some "Vente enregistrée hors ligne suite à une erreur. Sera synchronisée plus tard." }
   else
    { success := true, offline := true
      message := some "Vente enregistrée hors ligne. Sera synchronisée quand la connexion sera rétablie." },
   { db with sales := sales1, ops := ops1 })

/-- `createSale(saleData)` from `offline-handler.js`.  When
`navigator.onLine`, POST to `/api/sales/create`: an `ok` response
whose JSON parses with `success` stores the sale with the server id
and `synced: true` and resolves `success: true, online: true`; every
other outcome throws into the catch, whose last-resort branch is the
offline path with `fallback: true`.  When offline, the offline path
runs directly. -/
def createSale (onLine : Bool) (net : FetchResult) (avail : Bool) (db : AppDB)
    (nowIso : String) (nowMs : Nat) (saleData : Payload) : CreateSaleResult × AppDB :=
  if onLine then
    match net with
    | .resp status (some j) =>
      if statusOk status = true ∧ j.success = true then
        let (_, sales1) := storeDataSale avail db.sales
          { id := j.sale_id, reference := saleData.reference,
            created_at := saleData.created_at, synced := true, fieldsBlob := saleData.body }
        ({ success := true, sale_id := j.sale_id, online := true },
         { db with sales := sales1 })
      else createSaleOffline true avail db nowIso nowMs saleData
    | .resp _ none => createSaleOffline true avail db nowIso nowMs saleData
    | .exn => createSaleOffline true avail db nowIso nowMs saleData
  else
    createSaleOffline false avail db nowIso nowMs saleData

/- ## Concrete scenario data -/

/-- A concrete sale payload. -/
def dHammer : Payload :=
  { reference := some "REF-1", created_at := some "2026-10-11T00:00:00.000Z", body := "hammer x2" }

/-- The local mirror record an offline `createSale` left behind
(local autoincrement id 1, not yet synced). -/
def sale0 : SaleRec :=
  { id := 1, reference := some "REF-1", created_at := some "2026-10-11T00:00:00.000Z",
    synced := false, fieldsBlob := "hammer x2" }

/-- The queued `create_sale` operation correlated with `sale0`. -/
def opSale : PendingOp :=
  { id := 1, type := "create_sale", data := dHammer, timestamp := 5 }

/-- Database state holding the offline sale and its queued operation. -/
def dbSale : AppDB :=
  { sales := { nextId := 2, items := [sale0] }, ops := { nextId := 2, items := [opSale] } }

/-- A network that confirms every request with 200 and the server
sale id 42. -/
def saleNet : IssuedReq → FetchResult :=
  fun _ => .resp 200 (some { success := true, sale_id := some 42 })

/-- A network that rejects every request with a 500. -/
def failNet : IssuedReq → FetchResult := fun _ => .resp 500 none

/- ## Idempotent removal (claim C8) -/

theorem idbDeleteBy_absent (key : α → Nat) (items : List α) (k : Nat)
    (h : ∀ x ∈ items, key x ≠ k) : idbDeleteBy key items k = items := by
  simp only [idbDeleteBy]
  rw [List.filter_eq_self]
  intro x hx
  simp [h x hx]

theorem idbDeleteBy_mem (key : α → Nat) (items : List α) (k : Nat) (x : α) :
    x ∈ idbDeleteBy key items k ↔ x ∈ items ∧ key x ≠ k := by
  simp [idbDeleteBy]

/-- C8: removal from the `pendingOperations` queue is idempotent.
`deleteItem` never errors (it returns `true` whether or not the key is
present); deleting an absent id — including a second delete of the
same id — leaves the store unchanged; and a delete removes exactly the
records carrying key `id`, every other record surviving untouched. -/
theorem delete_idempotent (items : List PendingOp) (id : Nat) :
    (deleteItem items id).1 = true ∧
    (deleteItem (deleteItem items id).2 id).2 = (deleteItem items id).2 ∧
    ((∀ x ∈ items, x.id ≠ id) → (deleteItem items id).2 = items) ∧
    (∀ x, x ∈ (deleteItem items id).2 ↔ x ∈ items ∧ x.id ≠ id) := by
  refine ⟨rfl, ?_, ?_, ?_⟩
  · apply idbDeleteBy_absent
    intro x hx
    exact ((idbDeleteBy_mem PendingOp.id items id x).mp hx).2
  · intro h
    exact idbDeleteBy_absent PendingOp.id items id h
  · intro x
    exact idbDeleteBy_mem PendingOp.id items id x

/-- C8 witness: a concrete queue of two operations; deleting id 7
(absent), then deleting id 1 twice. -/
theorem delete_idempotent_witness :
    (∀ x ∈ ([⟨1, "create_sale", {}, 10, none, none⟩,
              ⟨2, "update_product", {}, 11, none, none⟩] : List PendingOp), x.id ≠ 7) ∧
    (deleteItem [⟨1, "create_sale", {}, 10, none, none⟩,
                 ⟨2, "update_product", {}, 11, none, none⟩] 7).2 =
      [⟨1, "create_sale", {}, 10, none, none⟩, ⟨2, "update_product", {}, 11, none, none⟩] := by
  refine ⟨by decide, ?_⟩
  exact (delete_idempotent
    [⟨1, "create_sale", {}, 10, none, none⟩, ⟨2, "update_product", {}, 11, none, none⟩]
    7).2.2.1 (by decide)

/- ## Cache-first strategy for data-API GETs (claim C3) -/

theorem cacheMatch_cachePut_self (cache : List CacheEntry) (url : String)
    (r : SWResponse) (now : Nat) (h : cacheMatch cache url = none) :
    cacheMatch (cachePut cache url r now) url =
      some { url := url, status := r.status, body := r.body, storedAt := now } := by
  have hall : ∀ x ∈ cache, ¬ ((fun e : CacheEntry => decide (e.url = url)) x = true) :=
    List.find?_eq_none.mp h
  have hany : cache.any (fun x => x.url = url) = false := by
    rw [List.any_eq_false]
    intro x hx
    exact hall x hx
  unfold cachePut
  rw [hany]
  simp only [Bool.false_eq_true, if_false, cacheMatch, List.find?_append]
  rw [show cache.find? (fun e => e.url = url) = none from h]
  simp [List.find?]

/-- C3: the GET branch of `apiRequestStrategy` has exactly three
terminal outcomes.  (1) A cache hit is answered with the stored
response immediately — for every network behaviour and every stored
age, so in particular a network-down GET of a cached key returns the
stored response regardless of `storedAt`; the background revalidation
cannot change the answer.  (2) On a cache miss with a responding
network, the network response is returned, and cached when it is
`ok`.  (3) On a cache miss with a failing network, the synthetic 503
response with an `"offline":true` body is returned. -/
theorem api_get_three_outcomes (net : String → NetResult) (st : SWState)
    (url : String) (now : Nat) :
    (∀ e, cacheMatch st.cache url = some e →
       (apiGetStrategy net st url now).1 = entryResponse e) ∧
    (cacheMatch st.cache url = none →
       (∀ r, net url = .resp r →
          (apiGetStrategy net st url now).1 = r ∧
          (statusOk r.status = true →
            cacheMatch (apiGetStrategy net st url now).2.cache url =
              some { url := url, status := r.status, body := r.body, storedAt := now })) ∧
       (net url = .failure →
          (apiGetStrategy net st url now).1 = offlineResponse ∧
          offlineResponse.status = 503 ∧
          ∃ p s, offlineResponse.body = p ++ "\"offline\":true" ++ s)) := by
  constructor
  · intro e he
    simp [apiGetStrategy, he]
  · intro hc
    constructor
    · intro r hr
      constructor
      · simp [apiGetStrategy, hc, hr]
      · intro hok
        simp only [apiGetStrategy, hc, hr, hok, if_true]
        exact cacheMatch_cachePut_self st.cache url r now hc
    · intro hr
      refine ⟨by simp [apiGetStrategy, hc, hr], rfl, ?_⟩
      exact ⟨"\x7b\"success\":false,\"error\":\"Offline - data not available\",", "\x7d", rfl⟩

/-- C3 witness: a concrete cache hit served stale-but-instantly under
a dead network, and a concrete cache miss answered by the synthetic
offline 503. -/
theorem api_get_three_outcomes_witness :
    (cacheMatch [{ url := "/api/inventory/products", status := 200,
                   body := "[]", storedAt := 3 }] "/api/inventory/products" =
       some { url := "/api/inventory/products", status := 200, body := "[]", storedAt := 3 }) ∧
    (apiGetStrategy (fun _ => .failure)
        { cache := [{ url := "/api/inventory/products", status := 200,
                      body := "[]", storedAt := 3 }] }
        "/api/inventory/products" 9).1 =
      entryResponse { url := "/api/inventory/products", status := 200, body := "[]", storedAt := 3 } ∧
    (apiGetStrategy (fun _ => .failure) {} "/api/sales/recent" 9).1 = offlineResponse := by
  refine ⟨by decide, ?_, ?_⟩
  · exact (api_get_three_outcomes (fun _ => .failure)
      { cache := [{ url := "/api/inventory/products", status := 200,
                    body := "[]", storedAt := 3 }] }
      "/api/inventory/products" 9).1
      { url := "/api/inventory/products", status := 200, body := "[]", storedAt := 3 }
      (by decide)
  · exact (((api_get_three_outcomes (fun _ => .failure) {} "/api/sales/recent" 9).2
      (by decide)).2 rfl).1

/- ## The fetch handler responds only to GETs (claim C9) -/

theorem apiGetStrategy_sync_frame (net : String → NetResult) (st : SWState)
    (url : String) (now : Nat) :
    (apiGetStrategy net st url now).2.syncQueue = st.syncQueue ∧
    (apiGetStrategy net st url now).2.syncNextId = st.syncNextId := by
  cases hc : cacheMatch st.cache url with
  | some e => simp [apiGetStrategy, hc]
  | none =>
    cases hn : net url with
    | resp r => simp [apiGetStrategy, hc, hn]
    | failure =>
      cases hc2 : cacheMatch st.cache url with
      | some e => simp [apiGetStrategy, hc, hn, hc2]
      | none => simp [apiGetStrategy, hc, hn, hc2]

theorem networkFirstStrategy_sync_frame (net : String → NetResult) (st : SWState)
    (url : String) (now : Nat) :
    (networkFirstStrategy net st url now).2.syncQueue = st.syncQueue ∧
    (networkFirstStrategy net st url now).2.syncNextId = st.syncNextId := by
  cases hn : net url with
  | resp r =>
    by_cases hok : statusOk r.status = true
    · simp [networkFirstStrategy, hn, hok]
    · cases hc : cacheMatch st.cache url with
      | some e => simp [networkFirstStrategy, hn, hok, hc]
      | none => simp [networkFirstStrategy, hn, hok, hc]
  | failure =>
    cases hc : cacheMatch st.cache url with
    | some e => simp [networkFirstStrategy, hn, hc]
    | none => simp [networkFirstStrategy, hn, hc]

theorem cacheFirstStrategy_sync_frame (net : String → NetResult) (st : SWState)
    (url : String) (now : Nat) :
    (cacheFirstStrategy net st url now).2.syncQueue = st.syncQueue ∧
    (cacheFirstStrategy net st url now).2.syncNextId = st.syncNextId := by
  cases hc : cacheMatch st.cache url with
  | some e => simp [cacheFirstStrategy, hc]
  | none =>
    cases hn : net url with
    | resp r => simp [cacheFirstStrategy, hc, hn]
    | failure => simp [cacheFirstStrategy, hc, hn]

theorem navigationFallback_state (st : SWState) (url : String) :
    (navigationFallback st url).2 = st := by
  cases hc : cacheMatch st.cache url with
  | some e => simp [navigationFallback, hc]
  | none =>
    cases hc2 : cacheMatch st.cache "/offline.html" with
    | some e => simp [navigationFallback, hc, hc2]
    | none => simp [navigationFallback, hc, hc2]

theorem handleNavigationRequest_sync_frame (net : String → NetResult) (st : SWState)
    (url : String) (now : Nat) :
    (handleNavigationRequest net st url now).2.syncQueue = st.syncQueue ∧
    (handleNavigationRequest net st url now).2.syncNextId = st.syncNextId := by
  cases hn : net url with
  | resp r =>
    by_cases hok : statusOk r.status = true
    · simp [handleNavigationRequest, hn, hok]
    · simp [handleNavigationRequest, hn, hok, navigationFallback_state]
  | failure => simp [handleNavigationRequest, hn, navigationFallback_state]

/-- C9: the `fetch` listener produces a response only for GET
requests — a non-GET (or chrome-extension) request is passed through
untouched, with the service worker state unchanged; for every request
whatsoever the `sync_queue` store is untouched by the fetch path, so
the write-queueing branch of `networkOnlyWithSync` (which would store
the request and answer a synthetic 202 `queued` response) is
unreachable from the fetch handler. -/
theorem fetch_handler_get_only (net : String → NetResult) (st : SWState)
    (req : FetchRequest) (now : Nat) :
    (req.method ≠ "GET" → handleFetch net st req now = (none, st)) ∧
    (handleFetch net st req now).2.syncQueue = st.syncQueue ∧
    (handleFetch net st req now).2.syncNextId = st.syncNextId ∧
    ((handleFetch net st req now).1 ≠ none → req.method = "GET") := by
  by_cases hm : req.method = "GET"
  · refine ⟨fun h => absurd hm h, ?_, ?_, fun _ => hm⟩ <;>
    · unfold handleFetch
      by_cases hp : req.urlProtocol = "chrome-extension:"
      · simp [hm, hp]
      · by_cases hnav : req.mode = "navigate" ∨ req.destination = "document"
        · simp only [hm, hp, hnav]
          simp [handleNavigationRequest_sync_frame net st req.urlPath now,
            (handleNavigationRequest_sync_frame net st req.urlPath now).1,
            (handleNavigationRequest_sync_frame net st req.urlPath now).2]
        · by_cases hapi : isAPIRequest req = true
          · simp only [hm, hp, hnav, hapi]
            simp [apiRequestStrategy, hm,
              (apiGetStrategy_sync_frame net st req.urlPath now).1,
              (apiGetStrategy_sync_frame net st req.urlPath now).2]
          · by_cases hst : isStaticResource req = true
            · simp only [hm, hp, hnav, hapi, hst]
              simp [(cacheFirstStrategy_sync_frame net st req.urlPath now).1,
                (cacheFirstStrategy_sync_frame net st req.urlPath now).2]
            · simp only [hm, hp, hnav, hapi, hst]
              simp [(networkFirstStrategy_sync_frame net st req.urlPath now).1,
                (networkFirstStrategy_sync_frame net st req.urlPath now).2]
  · have hpass : handleFetch net st req now = (none, st) := by
      unfold handleFetch
      simp [hm]
    refine ⟨fun _ => hpass, by rw [hpass], by rw [hpass], fun hr => ?_⟩
    rw [hpass] at hr
    simp at hr

/-- C9 witness: a POST to a data-API path is passed through — no
response from the worker, and the sync queue stays empty. -/
theorem fetch_handler_get_only_witness :
    ("POST" ≠ "GET") ∧
    handleFetch (fun _ => .failure) {}
      { method := "POST", urlPath := "/api/sales/create" } 5 = (none, {}) := by
  refine ⟨by decide, ?_⟩
  exact (fetch_handler_get_only (fun _ => .failure) {}
    { method := "POST", urlPath := "/api/sales/create" } 5).1 (by decide)

/- ## Replay-loop lemmas for `syncQueuedRequests` -/

theorem syncLoop_attempted (net : SyncRequest → SyncFetchResult) (clients : List Nat)
    (l : List SyncRequest) : ∀ acc : SyncOutcome,
    (syncLoop net clients l acc).attempted = acc.attempted ++ l := by
  induction l with
  | nil => intro acc; simp [syncLoop]
  | cons r rest ih =>
    intro acc
    cases hn : net r with
    | resp s =>
      by_cases hok : statusOk s = true
      · simp [syncLoop, hn, hok, ih]
      · by_cases ha : isAuthStatus s = true
        · simp [syncLoop, hn, hok, ha, ih]
        · simp [syncLoop, hn, hok, ha, ih]
    | exn => simp [syncLoop, hn, ih]

theorem syncLoop_successCount (net : SyncRequest → SyncFetchResult) (clients : List Nat)
    (l : List SyncRequest) : ∀ acc : SyncOutcome,
    (syncLoop net clients l acc).successCount =
      acc.successCount + l.countP (fun r => syncOk (net r)) := by
  induction l with
  | nil => intro acc; simp [syncLoop]
  | cons r rest ih =>
    intro acc
    cases hn : net r with
    | resp s =>
      by_cases hok : statusOk s = true
      · simp [syncLoop, hn, hok, ih, List.countP_cons, syncOk]
        omega
      · by_cases ha : isAuthStatus s = true
        · simp [syncLoop, hn, hok, ha, ih, List.countP_cons, syncOk]
        · simp [syncLoop, hn, hok, ha, ih, List.countP_cons, syncOk]
    | exn => simp [syncLoop, hn, ih, List.countP_cons, syncOk]

theorem syncLoop_failCount (net : SyncRequest → SyncFetchResult) (clients : List Nat)
    (l : List SyncRequest) : ∀ acc : SyncOutcome,
    (syncLoop net clients l acc).failCount =
      acc.failCount + l.countP (fun r => !(syncOk (net r))) := by
  induction l with
  | nil => intro acc; simp [syncLoop]
  | cons r rest ih =>
    intro acc
    cases hn : net r with
    | resp s =>
      by_cases hok : statusOk s = true
      · simp [syncLoop, hn, hok, ih, List.countP_cons, syncOk]
      · by_cases ha : isAuthStatus s = true
        · simp [syncLoop, hn, hok, ha, ih, List.countP_cons, syncOk]
          omega
        · simp [syncLoop, hn, hok, ha, ih, List.countP_cons, syncOk]
          omega
    | exn =>
      simp [syncLoop, hn, ih, List.countP_cons, syncOk]
      omega

theorem syncLoop_messages_mono (net : SyncRequest → SyncFetchResult) (clients : List Nat)
    (l : List SyncRequest) : ∀ (acc : SyncOutcome) (m : Nat × SWMessage),
    m ∈ acc.messages → m ∈ (syncLoop net clients l acc).messages := by
  induction l with
  | nil => intro acc m hm; simpa [syncLoop] using hm
  | cons r rest ih =>
    intro acc m hm
    cases hn : net r with
    | resp s =>
      by_cases hok : statusOk s = true
      · simp only [syncLoop, hn, hok, if_true]
        exact ih _ m hm
      · by_cases ha : isAuthStatus s = true
        · simp only [syncLoop, hn, hok, ha, if_true, Bool.false_eq_true, if_false]
          exact ih _ m (List.mem_append_left _ hm)
        · simp only [syncLoop, hn, hok, ha, Bool.false_eq_true, if_false]
          exact ih _ m hm
    | exn =>
      simp only [syncLoop, hn]
      exact ih _ m hm

theorem syncLoop_queue_pred (net : SyncRequest → SyncFetchResult) (clients : List Nat)
    (p : SyncRequest → Prop) (l : List SyncRequest) : ∀ acc : SyncOutcome,
    (∀ x ∈ acc.queue, p x) → ∀ x ∈ (syncLoop net clients l acc).queue, p x := by
  induction l with
  | nil => intro acc h; simpa [syncLoop] using h
  | cons r rest ih =>
    intro acc h
    cases hn : net r with
    | resp s =>
      by_cases hok : statusOk s = true
      · simp only [syncLoop, hn, hok, if_true]
        apply ih
        intro x hx
        exact h x ((idbDeleteBy_mem SyncRequest.id acc.queue r.id x).mp hx).1
      · by_cases ha : isAuthStatus s = true
        · simp only [syncLoop, hn, hok, ha, if_true, Bool.false_eq_true, if_false]
          apply ih
          intro x hx
          exact h x ((idbDeleteBy_mem SyncRequest.id acc.queue r.id x).mp hx).1
        · simp only [syncLoop, hn, hok, ha, Bool.false_eq_true, if_false]
          exact ih _ h
    | exn =>
      simp only [syncLoop, hn]
      exact ih _ h

theorem syncLoop_mem_preserved (net : SyncRequest → SyncFetchResult) (clients : List Nat)
    (op : SyncRequest) (l : List SyncRequest) : ∀ acc : SyncOutcome,
    op ∈ acc.queue →
    (∀ r ∈ l, removalOutcome (net r) = true → r.id ≠ op.id) →
    op ∈ (syncLoop net clients l acc).queue := by
  induction l with
  | nil => intro acc h _; simpa [syncLoop] using h
  | cons r rest ih =>
    intro acc hmem hno
    have hno' : ∀ r' ∈ rest, removalOutcome (net r') = true → r'.id ≠ op.id :=
      fun r' hr' => hno r' (List.mem_cons_of_mem r hr')
    cases hn : net r with
    | resp s =>
      by_cases hok : statusOk s = true
      · have hrid : r.id ≠ op.id :=
          hno r (List.mem_cons_self r rest) (by simp [removalOutcome, hn, hok])
        simp only [syncLoop, hn, hok, if_true]
        apply ih
        · exact (idbDeleteBy_mem SyncRequest.id acc.queue r.id op).mpr
            ⟨hmem, fun h => hrid h.symm⟩
        · exact hno'
      · by_cases ha : isAuthStatus s = true
        · have hrid : r.id ≠ op.id :=
            hno r (List.mem_cons_self r rest) (by simp [removalOutcome, hn, ha])
          simp only [syncLoop, hn, hok, ha, if_true, Bool.false_eq_true, if_false]
          apply ih
          · exact (idbDeleteBy_mem SyncRequest.id acc.queue r.id op).mpr
              ⟨hmem, fun h => hrid h.symm⟩
          · exact hno'
        · simp only [syncLoop, hn, hok, ha, Bool.false_eq_true, if_false]
          exact ih _ hmem hno'
    | exn =>
      simp only [syncLoop, hn]
      exact ih _ hmem hno'

theorem syncLoop_removed (net : SyncRequest → SyncFetchResult) (clients : List Nat)
    (r : SyncRequest) (l : List SyncRequest) : ∀ acc : SyncOutcome,
    r ∈ l → removalOutcome (net r) = true →
    ∀ x ∈ (syncLoop net clients l acc).queue, x.id ≠ r.id := by
  induction l with
  | nil => intro acc h; cases h
  | cons a rest ih =>
    intro acc hr hrem
    rcases List.mem_cons.mp hr with heq | htail
    · subst heq
      cases hn : net r with
      | resp s =>
        have hsor : statusOk s = true ∨ isAuthStatus s = true := by
          have h2 := hrem
          simp only [removalOutcome, hn, Bool.or_eq_true] at h2
          exact h2
        by_cases hok : statusOk s = true
        · simp only [syncLoop, hn, hok, if_true]
          apply syncLoop_queue_pred
          intro x hx
          exact ((idbDeleteBy_mem SyncRequest.id acc.queue r.id x).mp hx).2
        · have ha : isAuthStatus s = true := hsor.resolve_left hok
          simp only [syncLoop, hn, hok, ha, if_true, Bool.false_eq_true, if_false]
          apply syncLoop_queue_pred
          intro x hx
          exact ((idbDeleteBy_mem SyncRequest.id acc.queue r.id x).mp hx).2
      | exn => simp [removalOutcome, hn] at hrem
    · cases hn : net a with
      | resp s =>
        by_cases hok : statusOk s = true
        · simp only [syncLoop, hn, hok, if_true]
          exact ih _ htail hrem
        · by_cases ha : isAuthStatus s = true
          · simp only [syncLoop, hn, hok, ha, if_true, Bool.false_eq_true, if_false]
            exact ih _ htail hrem
          · simp only [syncLoop, hn, hok, ha, Bool.false_eq_true, if_false]
            exact ih _ htail hrem
      | exn =>
        simp only [syncLoop, hn]
        exact ih _ htail hrem

theorem syncLoop_auth_msg (net : SyncRequest → SyncFetchResult) (clients : List Nat)
    (r : SyncRequest) (s : Nat) (l : List SyncRequest) : ∀ acc : SyncOutcome,
    r ∈ l → net r = .resp s → statusOk s = false → isAuthStatus s = true →
    ∀ c ∈ clients, (c, SWMessage.authRequired r.url) ∈ (syncLoop net clients l acc).messages := by
  induction l with
  | nil => intro acc h; cases h
  | cons a rest ih =>
    intro acc hr hn hok ha c hc
    rcases List.mem_cons.mp hr with heq | htail
    · subst heq
      simp only [syncLoop, hn, hok, ha, if_true, Bool.false_eq_true, if_false]
      apply syncLoop_messages_mono
      apply List.mem_append_right
      simp only [broadcast, List.mem_map]
      exact ⟨c, hc, rfl⟩
    · cases hn2 : net a with
      | resp s2 =>
        by_cases hok2 : statusOk s2 = true
        · simp only [syncLoop, hn2, hok2, if_true]
          exact ih _ htail hn hok ha c hc
        · by_cases ha2 : isAuthStatus s2 = true
          · simp only [syncLoop, hn2, hok2, ha2, if_true, Bool.false_eq_true, if_false]
            exact ih _ htail hn hok ha c hc
          · simp only [syncLoop, hn2, hok2, ha2, Bool.false_eq_true, if_false]
            exact ih _ htail hn hok ha c hc
      | exn =>
        simp only [syncLoop, hn2]
        exact ih _ htail hn hok ha c hc

theorem isAuthStatus_not_ok (s : Nat) (h : isAuthStatus s = true) : statusOk s = false := by
  rcases of_decide_eq_true h with h2 | h2 <;> subst h2 <;> decide

/- ## Claims C1 and C6 about `syncQueuedRequests` -/

/-- C1 counterexample: with operations A, B, C queued in that order
and B answered 401, the code removes A (success), removes B and
notifies `AUTH_REQUIRED` — but it does NOT stop draining: C is
attempted in the same run (third issued request) and, succeeding, is
removed too, so the final queue is empty rather than still holding C.
This refutes the claim that every operation enqueued after the
auth-failing one remains queued, unattempted. -/
theorem auth_stop_counterexample :
    (syncQueuedRequests authNet [0] [reqA, reqB, reqC]).queue = [] ∧
    (syncQueuedRequests authNet [0] [reqA, reqB, reqC]).attempted = [reqA, reqB, reqC] ∧
    (0, SWMessage.authRequired "/api/customers/create") ∈
      (syncQueuedRequests authNet [0] [reqA, reqB, reqC]).messages := by
  decide

/-- C1 (amended): when replaying a pending operation yields an HTTP
401 or 403, `syncQueuedRequests` removes that operation from the
queue and notifies every client with an `AUTH_REQUIRED` signal, but
the drain does not stop: every snapshotted operation — including
those enqueued after the auth-failing one — is still attempted in the
same run. -/
theorem auth_failure_removes_and_continues (net : SyncRequest → SyncFetchResult)
    (clients : List Nat) (queue : List SyncRequest) (r : SyncRequest) (s : Nat)
    (hr : r ∈ queue) (hn : net r = .resp s) (ha : isAuthStatus s = true) :
    (∀ x ∈ (syncQueuedRequests net clients queue).queue, x.id ≠ r.id) ∧
    (∀ c ∈ clients, (c, SWMessage.authRequired r.url) ∈
        (syncQueuedRequests net clients queue).messages) ∧
    (syncQueuedRequests net clients queue).attempted = queue := by
  have hok : statusOk s = false := isAuthStatus_not_ok s ha
  have hrem : removalOutcome (net r) = true := by
    simp [removalOutcome, hn, ha]
  refine ⟨?_, ?_, ?_⟩
  · intro x hx
    simp only [syncQueuedRequests] at hx
    exact syncLoop_removed net clients r queue _ hr hrem x hx
  · intro c hc
    simp only [syncQueuedRequests]
    apply List.mem_append_left
    exact syncLoop_auth_msg net clients r s queue _ hr hn hok ha c hc
  · simp only [syncQueuedRequests]
    rw [syncLoop_attempted]
    simp

/-- C1 witness: the amended theorem applied to the concrete A, B, C
scenario with B answered 401. -/
theorem auth_failure_removes_and_continues_witness :
    (reqB ∈ [reqA, reqB, reqC]) ∧
    (∀ x ∈ (syncQueuedRequests authNet [0] [reqA, reqB, reqC]).queue, x.id ≠ reqB.id) ∧
    ((0, SWMessage.authRequired reqB.url) ∈
        (syncQueuedRequests authNet [0] [reqA, reqB, reqC]).messages) ∧
    (syncQueuedRequests authNet [0] [reqA, reqB, reqC]).attempted = [reqA, reqB, reqC] := by
  have h := auth_failure_removes_and_continues authNet [0] [reqA, reqB, reqC] reqB 401
    (by decide) (by decide) (by decide)
  exact ⟨by decide, h.1, h.2.1 0 (by decide), h.2.2⟩

/-- C6: at the end of every `syncQueuedRequests` run, every
registered client is notified with a `SYNC_COMPLETED` summary whose
`syncedCount`, `failedCount` and `totalCount` equal, respectively,
the number of replays confirmed successful in that run, the number
that failed in that run, and the number of operations attempted in
that run (the loop attempts every snapshotted request). -/
theorem drain_summary_notification (net : SyncRequest → SyncFetchResult)
    (clients : List Nat) (queue : List SyncRequest) :
    (syncQueuedRequests net clients queue).attempted = queue ∧
    (syncQueuedRequests net clients queue).successCount =
      (syncQueuedRequests net clients queue).attempted.countP (fun r => syncOk (net r)) ∧
    (syncQueuedRequests net clients queue).failCount =
      (syncQueuedRequests net clients queue).attempted.countP (fun r => !(syncOk (net r))) ∧
    (∀ c ∈ clients,
       (c, SWMessage.syncCompleted (syncQueuedRequests net clients queue).successCount
             (syncQueuedRequests net clients queue).failCount
             (syncQueuedRequests net clients queue).attempted.length) ∈
         (syncQueuedRequests net clients queue).messages) := by
  have hatt : (syncQueuedRequests net clients queue).attempted = queue := by
    simp only [syncQueuedRequests]
    rw [syncLoop_attempted]
    simp
  refine ⟨hatt, ?_, ?_, ?_⟩
  · rw [hatt]
    simp only [syncQueuedRequests]
    rw [syncLoop_successCount]
    simp
  · rw [hatt]
    simp only [syncQueuedRequests]
    rw [syncLoop_failCount]
    simp
  · intro c hc
    rw [hatt]
    simp only [syncQueuedRequests]
    apply List.mem_append_right
    simp only [broadcast, List.mem_map]
    exact ⟨c, hc, rfl⟩

/-- C6 witness: the summary theorem applied to the concrete A, B, C
run (two successes, one failure, three attempts) with one registered
client. -/
theorem drain_summary_notification_witness :
    (0 ∈ ([0] : List Nat)) ∧
    (0, SWMessage.syncCompleted
          (syncQueuedRequests authNet [0] [reqA, reqB, reqC]).successCount
          (syncQueuedRequests authNet [0] [reqA, reqB, reqC]).failCount
          (syncQueuedRequests authNet [0] [reqA, reqB, reqC]).attempted.length) ∈
      (syncQueuedRequests authNet [0] [reqA, reqB, reqC]).messages ∧
    (syncQueuedRequests authNet [0] [reqA, reqB, reqC]).successCount = 2 ∧
    (syncQueuedRequests authNet [0] [reqA, reqB, reqC]).failCount = 1 ∧
    (syncQueuedRequests authNet [0] [reqA, reqB, reqC]).attempted.length = 3 := by
  refine ⟨by decide, ?_, by decide, by decide, by decide⟩
  exact (drain_summary_notification authNet [0] [reqA, reqB, reqC]).2.2.2 0 (by decide)

/- ## Drain-loop lemmas for `processPendingOperations` -/

theorem applySuccess_ops (db : AppDB) (op : PendingOp) (json : Option RespJson) :
    (applySuccess db op json).ops.items = idbDeleteBy PendingOp.id db.ops.items op.id := by
  unfold applySuccess
  split_ifs <;> rfl

theorem ppo_components (net : IssuedReq → FetchResult) (db : AppDB)
    (h : db.ops.items.isEmpty = false) :
    (processPendingOperations net db).db = (drainLoop net db.ops.items db 0 0 []).1 ∧
    (processPendingOperations net db).attempted = (drainLoop net db.ops.items db 0 0 []).2.2.2 ∧
    (processPendingOperations net db).result.processed = (drainLoop net db.ops.items db 0 0 []).2.1 ∧
    (processPendingOperations net db).result.failed =
      some (drainLoop net db.ops.items db 0 0 []).2.2.1 := by
  simp [processPendingOperations, h]

theorem drainLoop_attempted (net : IssuedReq → FetchResult) (l : List PendingOp) :
    ∀ (db : AppDB) (p f : Nat) (reqs : List IssuedReq),
    (drainLoop net l db p f reqs).2.2.2 = reqs ++ l.filterMap reqOf := by
  induction l with
  | nil => intro db p f reqs; simp [drainLoop]
  | cons op rest ih =>
    intro db p f reqs
    cases hro : reqOf op with
    | none => simp [drainLoop, hro, ih]
    | some req =>
      cases hn : net req with
      | exn => simp [drainLoop, hro, hn, ih]
      | resp status json =>
        by_cases hok : statusOk status = true
        · simp [drainLoop, hro, hn, hok, ih]
        · simp [drainLoop, hro, hn, hok, ih]

theorem drainLoop_filter_known (net : IssuedReq → FetchResult) (l : List PendingOp) :
    ∀ (db : AppDB) (p f : Nat) (reqs : List IssuedReq),
    drainLoop net l db p f reqs =
      drainLoop net (l.filter (fun o => (reqOf o).isSome)) db p f reqs := by
  induction l with
  | nil => intro db p f reqs; simp
  | cons op rest ih =>
    intro db p f reqs
    cases hro : reqOf op with
    | none =>
      have hfc : (op :: rest).filter (fun o => (reqOf o).isSome) =
          rest.filter (fun o => (reqOf o).isSome) := by
        simp [List.filter_cons, hro]
      rw [hfc]
      simp only [drainLoop, hro]
      exact ih db p f reqs
    | some req =>
      have hfc : (op :: rest).filter (fun o => (reqOf o).isSome) =
          op :: rest.filter (fun o => (reqOf o).isSome) := by
        simp [List.filter_cons, hro]
      rw [hfc]
      cases hn : net req with
      | exn =>
        simp only [drainLoop, hro, hn]
        exact ih _ _ _ _
      | resp status json =>
        by_cases hok : statusOk status = true
        · simp only [drainLoop, hro, hn, hok, if_true]
          exact ih _ _ _ _
        · simp only [drainLoop, hro, hn, hok, Bool.false_eq_true, if_false]
          exact ih _ _ _ _

theorem drainLoop_mem_preserved (net : IssuedReq → FetchResult) (op : PendingOp)
    (l : List PendingOp) : ∀ (db : AppDB) (p f : Nat) (reqs : List IssuedReq),
    op ∈ db.ops.items →
    (∀ r ∈ l, opSucceeds net r = true → r.id ≠ op.id) →
    op ∈ (drainLoop net l db p f reqs).1.ops.items := by
  induction l with
  | nil => intro db p f reqs h _; simpa [drainLoop] using h
  | cons a rest ih =>
    intro db p f reqs hmem hno
    have hno' : ∀ r ∈ rest, opSucceeds net r = true → r.id ≠ op.id :=
      fun r hr => hno r (List.mem_cons_of_mem a hr)
    cases hro : reqOf a with
    | none =>
      simp only [drainLoop, hro]
      exact ih _ _ _ _ hmem hno'
    | some req =>
      cases hn : net req with
      | exn =>
        simp only [drainLoop, hro, hn]
        exact ih _ _ _ _ hmem hno'
      | resp status json =>
        by_cases hok : statusOk status = true
        · have haid : a.id ≠ op.id :=
            hno a (List.mem_cons_self a rest) (by simp [opSucceeds, hro, hn, hok])
          simp only [drainLoop, hro, hn, hok, if_true]
          apply ih
          · rw [applySuccess_ops]
            exact (idbDeleteBy_mem PendingOp.id db.ops.items a.id op).mpr
              ⟨hmem, fun h => haid h.symm⟩
          · exact hno'
        · simp only [drainLoop, hro, hn, hok, Bool.false_eq_true, if_false]
          exact ih _ _ _ _ hmem hno'

theorem addAll_ids_ascending (xs : List (String × Payload × Nat)) :
    ∀ s : OpStore, (∀ a ∈ s.items, a.id < s.nextId) →
      List.Chain' (· < ·) (s.items.map PendingOp.id) →
      (∀ a ∈ (s.addAll xs).items, a.id < (s.addAll xs).nextId) ∧
      List.Chain' (· < ·) ((s.addAll xs).items.map PendingOp.id) := by
  induction xs with
  | nil => intro s h1 h2; exact ⟨h1, h2⟩
  | cons x rest ih =>
    intro s h1 h2
    have hstep : s.addAll (x :: rest) = (s.add x.1 x.2.1 x.2.2).addAll rest := by
      simp [OpStore.addAll]
    rw [hstep]
    apply ih
    · intro a ha
      simp only [OpStore.add, List.mem_append, List.mem_singleton] at ha
      simp only [OpStore.add]
      rcases ha with ha | ha
      · have := h1 a ha
        omega
      · subst ha
        simp
    · simp only [OpStore.add, List.map_append]
      rw [List.chain'_append]
      refine ⟨h2, by simp, ?_⟩
      intro a ha b hb
      simp only [List.map_cons, List.map_nil, List.head?_cons, Option.mem_def,
        Option.some.injEq] at hb
      have ha2 : a ∈ s.items.map PendingOp.id := by
        obtain ⟨hne, rfl⟩ := List.mem_getLast?_eq_getLast ha
        exact List.getLast_mem hne
      obtain ⟨o, ho, rfl⟩ := List.mem_map.mp ha2
      have := h1 o ho
      omega

/- ## Claim C10: unknown operation types are inert -/

/-- C10: a pending operation whose `operationType` is not one of the
five known types is skipped by the drain's `default: continue`
branch: the whole run — final database, counters and issued
requests — is identical to a run over the queue with the unknown
operations removed; the unknown operation itself remains queued
unchanged, and no network request is ever issued for it (the issued
requests are exactly the routed known-type operations, in order). -/
theorem unknown_type_frame (net : IssuedReq → FetchResult) (db : AppDB) (op : PendingOp)
    (hmem : op ∈ db.ops.items) (hunknown : reqOf op = none)
    (hnodup : (db.ops.items.map PendingOp.id).Nodup) :
    drainLoop net db.ops.items db 0 0 [] =
      drainLoop net (db.ops.items.filter (fun o => (reqOf o).isSome)) db 0 0 [] ∧
    op ∈ (processPendingOperations net db).db.ops.items ∧
    (processPendingOperations net db).attempted = db.ops.items.filterMap reqOf := by
  have hne : db.ops.items.isEmpty = false := by
    cases h : db.ops.items with
    | nil => rw [h] at hmem; cases hmem
    | cons a t => simp [List.isEmpty]
  obtain ⟨hdb, hatt, -, -⟩ := ppo_components net db hne
  refine ⟨drainLoop_filter_known net db.ops.items db 0 0 [], ?_, ?_⟩
  · rw [hdb]
    apply drainLoop_mem_preserved net op db.ops.items db 0 0 [] hmem
    intro r hr hsucc heq
    have hreq : (reqOf r).isSome = true := by
      unfold opSucceeds at hsucc
      cases hro : reqOf r with
      | none => rw [hro] at hsucc; cases hsucc
      | some q => simp
    have : r = op := List.inj_on_of_nodup_map hnodup hr hmem heq
    rw [this, hunknown] at hreq
    cases hreq
  · rw [hatt, drainLoop_attempted]
    simp

/-- C10 witness: a queue holding an unknown-type operation and a
known `create_sale` operation; after a drain over a fully successful
network the unknown operation is still queued and only the sale
request was issued. -/
theorem unknown_type_frame_witness :
    ({ id := 7, type := "mystery_op", data := {}, timestamp := 9 } : PendingOp) ∈
      (processPendingOperations saleNet
        { ops := { nextId := 8,
                   items := [opSale,
                             { id := 7, type := "mystery_op", data := {}, timestamp := 9 }] } }).db.ops.items ∧
    (processPendingOperations saleNet
        { ops := { nextId := 8,
                   items := [opSale,
                             { id := 7, type := "mystery_op", data := {}, timestamp := 9 }] } }).attempted =
      [{ endpoint := "/api/sales/create", method := "POST", payload := dHammer }] := by
  have h := unknown_type_frame saleNet
    { ops := { nextId := 8,
               items := [opSale, { id := 7, type := "mystery_op", data := {}, timestamp := 9 }] } }
    { id := 7, type := "mystery_op", data := {}, timestamp := 9 }
    (by decide) (by decide) (by decide)
  refine ⟨h.2.1, ?_⟩
  rw [h.2.2]
  decide

/- ## Claim C2: FIFO replay and removal discipline -/

/-- C2: pending operations are replayed in FIFO enqueue order and
removed only after a confirmed success or the explicit auth-failure
decision.  (1) Enqueueing assigns strictly ascending autoincrement
ids, so `getAll` order is enqueue order.  (2) A
`processPendingOperations` run issues exactly the routed requests of
the queue in queue order (so with every type known and no failures,
the requests of A, B, C in order), and (3) a `syncQueuedRequests` run
attempts the snapshot in queue order.  (4) An operation absent after a
`processPendingOperations` run had a confirmed HTTP success, and
(5) a request absent after a `syncQueuedRequests` run had a confirmed
success or the 401/403 auth decision. -/
theorem fifo_replay (xs : List (String × Payload × Nat))
    (net : IssuedReq → FetchResult) (db : AppDB)
    (snet : SyncRequest → SyncFetchResult) (clients : List Nat) (squeue : List SyncRequest)
    (hnodup : (db.ops.items.map PendingOp.id).Nodup)
    (hsnodup : (squeue.map SyncRequest.id).Nodup) :
    List.Chain' (· < ·) ((OpStore.empty.addAll xs).items.map PendingOp.id) ∧
    (processPendingOperations net db).attempted = db.ops.items.filterMap reqOf ∧
    (syncQueuedRequests snet clients squeue).attempted = squeue ∧
    (∀ o ∈ db.ops.items, o ∉ (processPendingOperations net db).db.ops.items →
        opSucceeds net o = true) ∧
    (∀ r ∈ squeue, r ∉ (syncQueuedRequests snet clients squeue).queue →
        removalOutcome (snet r) = true) := by
  refine ⟨?_, ?_, ?_, ?_, ?_⟩
  · exact (addAll_ids_ascending xs OpStore.empty (by simp [OpStore.empty]) (by simp [OpStore.empty])).2
  · cases h : db.ops.items with
    | nil => simp [processPendingOperations, h]
    | cons a t =>
      have hne : db.ops.items.isEmpty = false := by simp [h, List.isEmpty]
      obtain ⟨-, hatt, -, -⟩ := ppo_components net db hne
      rw [hatt, drainLoop_attempted]
      simp [h]
  · simp only [syncQueuedRequests]
    rw [syncLoop_attempted]
    simp
  · intro o ho hnotin
    by_contra hfail
    apply hnotin
    have hne : db.ops.items.isEmpty = false := by
      cases h : db.ops.items with
      | nil => rw [h] at ho; cases ho
      | cons a t => simp [List.isEmpty]
    obtain ⟨hdb, -, -, -⟩ := ppo_components net db hne
    rw [hdb]
    apply drainLoop_mem_preserved net o db.ops.items db 0 0 [] ho
    intro r hr hsucc heq
    have : r = o := List.inj_on_of_nodup_map hnodup hr ho heq
    rw [this] at hsucc
    exact hfail hsucc
  · intro r hr hnotin
    by_contra hfail
    apply hnotin
    simp only [syncQueuedRequests]
    apply syncLoop_mem_preserved snet clients r squeue _ ?_ ?_
    · exact hr
    · intro r' hr' hrem heq
      have : r' = r := List.inj_on_of_nodup_map hsnodup hr' hr heq
      rw [this] at hrem
      exact hfail hrem

/-- C2 witness: the FIFO theorem applied to a concrete enqueue batch,
the concrete sale queue over a fully successful network, and the
concrete A, B, C sync queue. -/
theorem fifo_replay_witness :
    List.Chain' (· < ·)
      ((OpStore.empty.addAll
        [("create_sale", dHammer, 1), ("create_customer", {}, 2)]).items.map PendingOp.id) ∧
    (processPendingOperations saleNet dbSale).attempted = dbSale.ops.items.filterMap reqOf ∧
    (syncQueuedRequests authNet [0] [reqA, reqB, reqC]).attempted = [reqA, reqB, reqC] := by
  have h := fifo_replay [("create_sale", dHammer, 1), ("create_customer", {}, 2)]
    saleNet dbSale authNet [0] [reqA, reqB, reqC] (by decide) (by decide)
  exact ⟨h.1, h.2.1, h.2.2.1⟩

/- ## Claim C5: failure handling fields -/

/-- C5 counterexample: `storePendingOperation` stores only
`type`, `data`, `timestamp` — the created operation carries no
`attemptCount` property at all (`none`, not the integer 0) and no
`lastError`; and after a drain in which its replay fails with a 500,
the operation is still byte-identical (no incremented attempt count,
no recorded error). -/
theorem attempt_count_counterexample :
    (storePendingOperation true OpStore.empty "create_sale" dHammer 5).2.items =
      [{ id := 1, type := "create_sale", data := dHammer, timestamp := 5 }] ∧
    (∀ o ∈ (storePendingOperation true OpStore.empty "create_sale" dHammer 5).2.items,
        o.attemptCount = none ∧ o.lastError = none) ∧
    (processPendingOperations failNet
        { ops := (storePendingOperation true OpStore.empty "create_sale" dHammer 5).2 }).db.ops.items =
      [{ id := 1, type := "create_sale", data := dHammer, timestamp := 5 }] := by
  decide

/-- C5 (amended): a pending operation whose replay fails with a
non-auth failure is left in the queue entirely unchanged — the
implementation maintains no `attemptCount` or `lastError` fields
(every operation `storePendingOperation` creates carries `none` for
both), and a failed replay only increments the run's failure
counter.  The same holds for the service worker's `sync_queue`: a
request whose replay fails without the 401/403 decision stays
queued. -/
theorem non_auth_failure_leaves_queue (net : IssuedReq → FetchResult) (db : AppDB)
    (op : PendingOp) (snet : SyncRequest → SyncFetchResult) (clients : List Nat)
    (squeue : List SyncRequest) (r : SyncRequest)
    (hmem : op ∈ db.ops.items) (hnodup : (db.ops.items.map PendingOp.id).Nodup)
    (hfail : opSucceeds net op = false)
    (hrmem : r ∈ squeue) (hsnodup : (squeue.map SyncRequest.id).Nodup)
    (hrfail : removalOutcome (snet r) = false) :
    op ∈ (processPendingOperations net db).db.ops.items ∧
    r ∈ (syncQueuedRequests snet clients squeue).queue ∧
    (∀ (avail : Bool) (s : OpStore) (ty : String) (d : Payload) (ts : Nat),
       ∀ o ∈ (storePendingOperation avail s ty d ts).2.items,
         o ∈ s.items ∨ (o.attemptCount = none ∧ o.lastError = none)) := by
  refine ⟨?_, ?_, ?_⟩
  · have hne : db.ops.items.isEmpty = false := by
      cases h : db.ops.items with
      | nil => rw [h] at hmem; cases hmem
      | cons a t => simp [List.isEmpty]
    obtain ⟨hdb, -, -, -⟩ := ppo_components net db hne
    rw [hdb]
    apply drainLoop_mem_preserved net op db.ops.items db 0 0 [] hmem
    intro r' hr' hsucc heq
    have : r' = op := List.inj_on_of_nodup_map hnodup hr' hmem heq
    rw [this] at hsucc
    rw [hsucc] at hfail
    cases hfail
  · simp only [syncQueuedRequests]
    apply syncLoop_mem_preserved snet clients r squeue _ hrmem
    intro r' hr' hrem heq
    have : r' = r := List.inj_on_of_nodup_map hsnodup hr' hrmem heq
    rw [this] at hrem
    rw [hrem] at hrfail
    cases hrfail
  · intro avail s ty d ts o ho
    by_cases ha : avail = true
    · subst ha
      simp only [storePendingOperation, if_true, OpStore.add, List.mem_append,
        List.mem_singleton] at ho
      rcases ho with ho | ho
      · exact Or.inl ho
      · subst ho
        exact Or.inr ⟨rfl, rfl⟩
    · have : avail = false := by
        cases avail
        · rfl
        · exact absurd rfl ha
      subst this
      simp only [storePendingOperation, Bool.false_eq_true, if_false] at ho
      exact Or.inl ho

/-- C5 witness: the amended theorem at the concrete single-operation
queue whose replay is answered 500, and a single-request sync queue
whose replay is answered 500. -/
theorem non_auth_failure_leaves_queue_witness :
    opSale ∈ (processPendingOperations failNet dbSale).db.ops.items ∧
    reqA ∈ (syncQueuedRequests (fun _ => .resp 500) [0] [reqA]).queue := by
  have h := non_auth_failure_leaves_queue failNet dbSale opSale
    (fun _ => .resp 500) [0] [reqA] reqA
    (by decide) (by decide) (by decide) (by decide) (by decide) (by decide)
  exact ⟨h.1, h.2.1⟩

/- ## Claim C7: create_sale reconciliation -/

theorem idbPutBy_mem_self (key : α → Nat) (acc : List α) (x : α)
    (hx : x ∈ acc) (hnd : (acc.map key).Nodup) : idbPutBy key acc x = acc := by
  have hany : acc.any (fun y => key y = key x) = true := by
    rw [List.any_eq_true]
    exact ⟨x, hx, by simp⟩
  have hmap : ∀ y ∈ acc, (if key y = key x then x else y) = y := by
    intro y hy
    by_cases h : key y = key x
    · have hyx : y = x := List.inj_on_of_nodup_map hnd hy hx h
      rw [if_pos h, hyx]
    · rw [if_neg h]
  simp only [idbPutBy, hany, if_true]
  calc acc.map (fun y => if key y = key x then x else y) = acc.map id :=
        List.map_congr_left (by intro y hy; rw [hmap y hy]; rfl)
    _ = acc := List.map_id acc

theorem idbPutBy_fresh (key : α → Nat) (acc : List α) (e : α)
    (h : ∀ x ∈ acc, key x ≠ key e) : idbPutBy key acc e = acc ++ [e] := by
  have hany : acc.any (fun y => key y = key e) = false := by
    rw [List.any_eq_false]
    intro x hx
    simp [h x hx]
  simp [idbPutBy, hany]

theorem foldl_idbPutBy_id (key : α → Nat) (m : List α) :
    ∀ acc : List α, (∀ x ∈ m, x ∈ acc) → (acc.map key).Nodup →
      m.foldl (idbPutBy key) acc = acc := by
  induction m with
  | nil => intro acc _ _; rfl
  | cons a t ih =>
    intro acc hsub hnd
    have ha : a ∈ acc := hsub a (by simp)
    rw [List.foldl_cons, idbPutBy_mem_self key acc a ha hnd]
    exact ih acc (fun x hx => hsub x (by simp [hx])) hnd

theorem findAndMark_split (d : Payload) (sid : Nat) (l₁ : List SaleRec) (e : SaleRec)
    (l₂ : List SaleRec) (hbefore : ∀ x ∈ l₁, saleMatches d x = false)
    (hmatch : saleMatches d e = true) :
    findAndMark d sid (l₁ ++ e :: l₂) =
      some (l₁ ++ ({ e with id := sid, synced := true }) :: l₂) := by
  induction l₁ with
  | nil => simp [findAndMark, hmatch]
  | cons a t ih =>
    have ha : saleMatches d a = false := hbefore a (by simp)
    have iht := ih (fun x hx => hbefore x (by simp [hx]))
    simp [findAndMark, ha, iht]

theorem reconcileSale_appends (st : SaleStore) (d : Payload) (sid : Nat)
    (l₁ l₂ : List SaleRec) (e : SaleRec)
    (hsplit : st.items = l₁ ++ e :: l₂)
    (hbefore : ∀ x ∈ l₁, saleMatches d x = false)
    (hmatch : saleMatches d e = true)
    (hsid : sid ≠ 0)
    (hfresh : ∀ x ∈ st.items, x.id ≠ sid)
    (hnodup : (st.items.map SaleRec.id).Nodup) :
    (reconcileSale st d (some { success := true, sale_id := some sid })).items =
      st.items ++ [{ e with id := sid, synced := true }] := by
  have hfm : findAndMark d sid st.items =
      some (l₁ ++ ({ e with id := sid, synced := true }) :: l₂) := by
    rw [hsplit]
    exact findAndMark_split d sid l₁ e l₂ hbefore hmatch
  have hsub1 : ∀ x ∈ l₁, x ∈ st.items := by
    intro x hx
    rw [hsplit]
    exact List.mem_append_left _ hx
  have hsub2 : ∀ x ∈ l₂, x ∈ st.items := by
    intro x hx
    rw [hsplit]
    exact List.mem_append_right _ (List.mem_cons_of_mem e hx)
  have hfold : (l₁ ++ ({ e with id := sid, synced := true }) :: l₂).foldl
      (idbPutBy SaleRec.id) st.items = st.items ++ [{ e with id := sid, synced := true }] := by
    rw [List.foldl_append, foldl_idbPutBy_id SaleRec.id l₁ st.items hsub1 hnodup,
      List.foldl_cons, idbPutBy_fresh SaleRec.id st.items _ (by intro x hx; exact hfresh x hx)]
    apply foldl_idbPutBy_id
    · intro x hx
      exact List.mem_append_left _ (hsub2 x hx)
    · rw [List.map_append]
      refine List.Nodup.append hnodup (by simp) ?_
      intro i hi hie
      simp only [List.map_cons, List.map_nil, List.mem_singleton] at hie
      obtain ⟨o, ho, rfl⟩ := List.mem_map.mp hi
      exact hfresh o ho hie
  simp only [reconcileSale]
  rw [if_pos ⟨trivial, hsid⟩, hfm]
  simpa using hfold

/-- C7 counterexample: the offline sale `sale0` (local id 1,
`synced=false`) is matched and its mutated copy is put back under the
server id 42, but the original record under id 1 is never deleted:
after the drain the `sales` partition holds TWO records for that
sale — the stale unsynced one and the reconciled one — refuting
"contains exactly one record for that sale". -/
theorem sale_reconciliation_counterexample :
    (processPendingOperations saleNet dbSale).db.sales.items =
      [sale0,
       { id := 42, reference := some "REF-1",
         created_at := some "2026-10-11T00:00:00.000Z",
         synced := true, fieldsBlob := "hammer x2" }] ∧
    ((processPendingOperations saleNet dbSale).db.sales.items.filter
        (saleMatches dHammer)).length = 2 := by
  decide

/-- C7 (amended): when the pending `create_sale` operation succeeds,
the correlated local record (first match by reference, or by creation
time among unsynced records) has its id rewritten to the server sale
id and `synced` set true in the copy that is put back — but the put
happens under the new key, so whenever the server id differs from
every local key the partition afterwards contains the original stale
record AND the reconciled record: two records for that sale, not
one. -/
theorem sale_reconciliation_amended (net : IssuedReq → FetchResult) (db : AppDB)
    (op : PendingOp) (sid : Nat) (l₁ l₂ : List SaleRec) (e : SaleRec)
    (hops : db.ops.items = [op])
    (htype : op.type = "create_sale")
    (hnet : net { endpoint := "/api/sales/create", method := "POST", payload := op.data } =
      .resp 200 (some { success := true, sale_id := some sid }))
    (hsplit : db.sales.items = l₁ ++ e :: l₂)
    (hbefore : ∀ x ∈ l₁, saleMatches op.data x = false)
    (hmatch : saleMatches op.data e = true)
    (hsid : sid ≠ 0)
    (hfresh : ∀ x ∈ db.sales.items, x.id ≠ sid)
    (hnodup : (db.sales.items.map SaleRec.id).Nodup) :
    (processPendingOperations net db).db.ops.items = [] ∧
    (processPendingOperations net db).db.sales.items =
      db.sales.items ++ [{ e with id := sid, synced := true }] := by
  have hne : db.ops.items.isEmpty = false := by simp [hops, List.isEmpty]
  obtain ⟨hdb, -, -, -⟩ := ppo_components net db hne
  have hro : reqOf op =
      some { endpoint := "/api/sales/create", method := "POST", payload := op.data } := by
    simp [reqOf, routeOp, htype]
  have hok : statusOk 200 = true := by decide
  have hsales : (applySuccess db op (some { success := true, sale_id := some sid })).sales =
      reconcileSale db.sales op.data (some { success := true, sale_id := some sid }) := by
    simp [applySuccess, htype]
  have hops2 : (applySuccess db op (some { success := true, sale_id := some sid })).ops.items
      = [] := by
    rw [applySuccess_ops, hops]
    simp [idbDeleteBy]
  rw [hdb, hops]
  simp only [drainLoop, hro, hnet, hok, if_true]
  constructor
  · exact hops2
  · rw [hsales]
    exact reconcileSale_appends db.sales op.data sid l₁ l₂ e hsplit hbefore hmatch hsid
      hfresh hnodup

/-- C7 witness: the amended theorem at the concrete offline sale and
its queued operation, server id 42. -/
theorem sale_reconciliation_amended_witness :
    (processPendingOperations saleNet dbSale).db.ops.items = [] ∧
    (processPendingOperations saleNet dbSale).db.sales.items =
      dbSale.sales.items ++ [{ sale0 with id := 42, synced := true }] := by
  exact sale_reconciliation_amended saleNet dbSale opSale 42 [] [] sale0
    (by decide) (by decide) (by decide) (by decide) (by simp)
    (by decide) (by decide) (by decide) (by decide)

/- ## Claim C4: degraded storage must not report success -/

/-- C4 (code bug): with `navigator.onLine` true, the POST to
`/api/sales/create` throwing, and IndexedDB unavailable (both
`storeData` and `storePendingOperation` catch internally and return
`false`), `createSale` ignores the two booleans and still resolves
`success: true` (fallback branch) while neither the sale nor the
pending operation was durably stored — the database is unchanged and
the queue empty.  The claim (write paths must fail fast under
`StorageUnavailable`) is right; the code silently loses the write. -/
theorem createSale_success_without_storage :
    (createSale true FetchResult.exn false {} "2026-10-11T00:00:00.000Z" 900 dHammer).1.success
      = true ∧
    (createSale true FetchResult.exn false {} "2026-10-11T00:00:00.000Z" 900 dHammer).1.offline
      = true ∧
    (createSale true FetchResult.exn false {} "2026-10-11T00:00:00.000Z" 900 dHammer).1.fallback
      = true ∧
    (createSale true FetchResult.exn false {} "2026-10-11T00:00:00.000Z" 900 dHammer).2
      = ({} : AppDB) := by
  decide

end Quincaillerie
